import Mathlib

/-!
# Shallow embedding of the quiz-bot webhook (`src/app.py`)

This file embeds the decision logic of the webhook-driven quiz bot:
event classification, question selection, seen-tracking, answer grading,
and the webhook verification handshake.  External collaborators are made
explicit:

* the MongoDB store (collections `questions` and `users`) becomes the
  `questions` / `users` fields of `BotState`; store reachability becomes
  the `storeUp` flag (an unreachable store makes every store operation
  raise, modelled with `Except`);
* the outbound messaging channel becomes the `netUp` flag plus a list of
  `Effect`s; `send_message` catches its own network failure, so it never
  raises (mirroring the `try/except` around `requests.post`);
* inbound JSON bodies become the `Json` type, with Python dictionary /
  list semantics (`.get`, `[...]` subscripts, truthiness, iteration)
  embedded as `Except`-returning accessors whose errors model the Python
  exceptions (`KeyError`, `TypeError`, `AttributeError`, `IndexError`,
  `bson.errors.InvalidId`).

Python exceptions propagate as `Except.error`; every `send` in the source
happens after all the points that can raise inside the same handler, so an
`error` result corresponds to a request in which that handler emitted no
outbound message.
-/

/-- Python exceptions that the embedded code can raise. -/
inductive PyErr where
  | keyError
  | typeError
  | attrError
  | indexError
  | invalidId
  | storeError
deriving DecidableEq, Repr

/-- JSON values.  Arrays and objects are encoded with their own cons cells
(`arrCons` / `objCons`) so that equality is derivable; `arrOf` / `objOf`
build them from Lean lists. -/
inductive Json where
  | null
  | bool (b : Bool)
  | num (n : Int)
  | str (s : String)
  | arrNil
  | arrCons (head tail : Json)
  | objNil
  | objCons (key : String) (val rest : Json)
deriving DecidableEq, Repr

/-- Build a JSON array from a list of values. -/
def Json.arrOf : List Json → Json
  | [] => .arrNil
  | x :: xs => .arrCons x (Json.arrOf xs)

/-- Build a JSON object from a list of key/value pairs. -/
def Json.objOf : List (String × Json) → Json
  | [] => .objNil
  | (k, v) :: fs => .objCons k v (Json.objOf fs)

/-- Is this value a JSON object (Python `dict`)? -/
def Json.isObj : Json → Bool
  | .objNil => true
  | .objCons _ _ _ => true
  | _ => false

/-- Field lookup inside an object spine (first occurrence wins, like a
Python `dict` built from JSON). -/
def Json.objLookup : Json → String → Option Json
  | .objCons k v rest, key => if k = key then some v else Json.objLookup rest key
  | _, _ => none

/-- Python `d.get(key, default)`: `AttributeError` when the receiver is not
a dictionary, otherwise the field or the default. -/
def pyGetD (j : Json) (key : String) (dflt : Json) : Except PyErr Json :=
  if j.isObj then .ok ((j.objLookup key).getD dflt) else .error .attrError

/-- Python `d.get(key)` (default `None`). -/
def pyGet (j : Json) (key : String) : Except PyErr Json :=
  pyGetD j key .null

/-- Python `d[key]`: `KeyError` when the key is missing, `TypeError` when
the receiver is not a dictionary. -/
def pyIndex (j : Json) (key : String) : Except PyErr Json :=
  if j.isObj then
    match j.objLookup key with
    | some v => .ok v
    | none => .error .keyError
  else .error .typeError

/-- Python iteration `for x in j`: `TypeError` unless `j` is a list. -/
def pyList : Json → Except PyErr (List Json)
  | .arrNil => .ok []
  | .arrCons x rest => do
      let xs ← pyList rest
      .ok (x :: xs)
  | _ => .error .typeError

/-- Python truthiness of a JSON value (`None`, `False`, `0`, `""`, `[]`,
`{}` are falsy). -/
def pyTruthy : Json → Bool
  | .null => false
  | .bool b => b
  | .num n => n != 0
  | .str s => s != ""
  | .arrNil => false
  | .arrCons _ _ => true
  | .objNil => false
  | .objCons _ _ _ => true

/-- Python `.upper()` / `.startswith` / `.split` require a string receiver;
anything else raises `AttributeError`. -/
def pyAsStr : Json → Except PyErr String
  | .str s => .ok s
  | _ => .error .attrError

/-- Python `str.upper()` (ASCII letters, which is all the bot compares). -/
def pyUpper (s : String) : String :=
  String.mk (s.data.map Char.toUpper)

/-- Python `a.startswith(b)`. -/
def pyStartsWith (s pre : String) : Bool :=
  pre.data.isPrefixOf s.data

/-- Python `s.split('_')` on the underlying character list: split at every
separator, keeping empty pieces. -/
def splitUnd : List Char → List (List Char)
  | [] => [[]]
  | c :: rest =>
      if c = '_' then [] :: splitUnd rest
      else
        match splitUnd rest with
        | r :: rs => (c :: r) :: rs
        | [] => [[c]]

/-- Python `s.split('_')`. -/
def pySplit (s : String) : List String :=
  (splitUnd s.data).map String.mk

/-- Python `xs[i]`: `IndexError` when out of range. -/
def listGetPy {α : Type} (xs : List α) (i : Nat) : Except PyErr α :=
  match xs.get? i with
  | some x => .ok x
  | none => .error .indexError

/-- A string bson's `ObjectId` constructor accepts: 24 hexadecimal
digits of either case (`bytes.fromhex` is case-insensitive).
`ObjectId(s)` raises `InvalidId` for anything else. -/
def objectIdValid (s : String) : Bool :=
  s.length = 24 && s.data.all (fun c => ("0123456789abcdefABCDEF".data).contains c)

/-- Decoding a valid hex string to `ObjectId` bytes and re-printing it
(`str(ObjectId(s))`) lowercases the hex digits; two valid strings denote
the same `ObjectId` exactly when their normalizations agree. -/
def objectIdNormalize (s : String) : String :=
  String.mk (s.data.map Char.toLower)

/-- The canonical printed form of a stored `ObjectId` (`str(_id)`): 24
lowercase hex digits.  Mongo-assigned `_id`s print this way, and the app
only ever writes `str(question_id)` into seen lists, so stored ids are
canonical in every reachable store state. -/
def objectIdCanonical (s : String) : Bool :=
  s.length = 24 && s.data.all (fun c => ("0123456789abcdef".data).contains c)

/-- A question document in the `questions` collection (fields per the
store schema: `_id`, `exam_name`, `question_text`, `options.a`..`.d`,
`correct_option`, optional `explanation`). -/
structure Question where
  qid : String
  exam_name : String
  question_text : String
  optA : String
  optB : String
  optC : String
  optD : String
  correct_option : String
  explanation : Option String
deriving DecidableEq, Repr

/-- A quick-reply button (`{"type": ..., "title": ..., "payload": ...}`). -/
structure Button where
  btn_type : String
  title : String
  payload : String
deriving DecidableEq, Repr

/-- An outbound message payload: text plus the optional `quick_replies`
button list. -/
structure MessagePayload where
  text : String
  quick_replies : Option (List Button)
deriving DecidableEq, Repr

/-- Observable actions of the bot: an outbound send, a store write adding
a question id to a user's seen list, or a logged (swallowed) error. -/
inductive Effect where
  | send (recipient : Json) (payload : MessagePayload)
  | markSeen (user : Json) (qid : String)
  | log (msg : String)
deriving DecidableEq, Repr

/-- The world the handlers run in: the two Mongo collections, store
reachability and outbound-network reachability. -/
structure BotState where
  questions : List Question
  users : List (Json × List String)
  storeUp : Bool
  netUp : Bool
deriving DecidableEq, Repr

/-- The user's stored seen-id list (`[]` when the user document is absent
or lacks the field), as read by `fetch_unseen_question`. -/
def seenOf (s : BotState) (user_id : Json) : List String :=
  ((s.users.find? (fun p => p.1 = user_id)).map (·.2)).getD []

/-- `db.users.update_one({'_id': u}, {'$push': ...}, upsert=True)`:
append to the first matching document's list, creating the document when
absent. -/
def pushSeen : List (Json × List String) → Json → String → List (Json × List String)
  | [], uid, qid => [(uid, [qid])]
  | (k, ids) :: rest, uid, qid =>
      if k = uid then (k, ids ++ [qid]) :: rest
      else (k, ids) :: pushSeen rest uid qid

/-- `fetch_unseen_question` (src/app.py:45-65): read the user's seen ids,
convert them to `ObjectId`s, and `$match`+`$sample` one question of the
exam whose id is not seen.  The `$sample` randomness is an oracle
`choice`; the result is `none` exactly when no question qualifies. -/
def fetch_unseen_question (s : BotState) (choice : Nat) (user_id : Json)
    (exam_name : String) : Except PyErr (Option Question) :=
  if !s.storeUp then .error .storeError
  else
    let seen_ids := seenOf s user_id
    if !seen_ids.all objectIdValid then .error .invalidId
    else
      let qualifying := s.questions.filter
        (fun q => q.exam_name = exam_name && !(seen_ids.contains q.qid))
      .ok (qualifying.get? (choice % qualifying.length))

/-- `mark_question_as_seen` (src/app.py:67-76): `$push` the id (stored as
a string) onto the user's `seen_question_ids`, upserting. -/
def mark_question_as_seen (s : BotState) (user_id : Json) (question_id : String) :
    Except PyErr (BotState × List Effect) :=
  if !s.storeUp then .error .storeError
  else .ok ({ s with users := pushSeen s.users user_id question_id },
            [Effect.markSeen user_id question_id])

/-- `get_question_by_id` (src/app.py:78-80): `ObjectId(question_id)`
(raising `InvalidId` on a malformed id) then `find_one` on `_id`.
`find_one` compares `ObjectId`s by their decoded bytes, so the lookup is
case-insensitive in the hex digits: it matches on the normalized forms. -/
def get_question_by_id (s : BotState) (question_id : String) :
    Except PyErr (Option Question) :=
  if !objectIdValid question_id then .error .invalidId
  else if !s.storeUp then .error .storeError
  else .ok (s.questions.find?
    (fun q => objectIdNormalize q.qid = objectIdNormalize question_id))

/-- `send_message` (src/app.py:33-43): one POST to the messaging endpoint;
a network failure is caught and logged, so this never raises. -/
def send_message (s : BotState) (recipient_id : Json) (mp : MessagePayload) :
    List Effect :=
  if s.netUp then [Effect.send recipient_id mp] else [Effect.log "send failed"]

/-- The full question text sent to the user
(`"{q_text}\n\nA) ..."`, src/app.py:146). -/
def question_text_msg (q : Question) : String :=
  q.question_text ++ "\n\nA) " ++ q.optA ++ "\nB) " ++ q.optB ++
    "\nC) " ++ q.optC ++ "\nD) " ++ q.optD

/-- The four answer buttons (src/app.py:139-144): payloads
`ANSWER_{q_id}_a` .. `ANSWER_{q_id}_d`. -/
def answer_buttons (q : Question) : List Button :=
  [ { btn_type := "postback", title := "A", payload := "ANSWER_" ++ q.qid ++ "_a" },
    { btn_type := "postback", title := "B", payload := "ANSWER_" ++ q.qid ++ "_b" },
    { btn_type := "postback", title := "C", payload := "ANSWER_" ++ q.qid ++ "_c" },
    { btn_type := "postback", title := "D", payload := "ANSWER_" ++ q.qid ++ "_d" } ]

/-- The exhaustion/completion message for an exam (src/app.py:150). -/
def completion_message (exam_name : String) : MessagePayload :=
  { text := "🎉 Congratulations! You've completed all available questions for "
      ++ exam_name ++ "."
  , quick_replies := none }

/-- The question-serving message (src/app.py:139-147): formatted question
text plus the four lettered answer buttons. -/
def question_message (q : Question) : MessagePayload :=
  { text := question_text_msg q, quick_replies := some (answer_buttons q) }

/-- `handle_new_question_request` (src/app.py:127-150): fetch an unseen
question; when one exists, immediately mark it seen and then send it with
its four buttons; otherwise send the completion message. -/
def handle_new_question_request (s : BotState) (choice : Nat) (sender_id : Json)
    (exam_name : String) : Except PyErr (BotState × List Effect) := do
  let qOpt ← fetch_unseen_question s choice sender_id exam_name
  match qOpt with
  | some q => do
      let (s', markEffs) ← mark_question_as_seen s sender_id q.qid
      .ok (s', markEffs ++ send_message s' sender_id (question_message q))
  | none =>
      .ok (s, send_message s sender_id (completion_message exam_name))

/-- The single next-question button attached to a graded reply
(src/app.py:174-176). -/
def next_question_button (exam : String) : Button :=
  { btn_type := "postback", title := "Next Question", payload := "NEXT_" ++ exam }

/-- The graded reply (src/app.py:162-177): correctness text from the exact
comparison of the submitted letter with the stored one, explanation or the
placeholder, and one next-question button for the question's own exam. -/
def answer_reply (question_doc : Question) (user_answer : String) : MessagePayload :=
  let correct_answer := question_doc.correct_option
  let explanation := question_doc.explanation.getD "No explanation available."
  { text :=
      if user_answer = correct_answer then
        "✅ Correct!\n\n" ++ explanation
      else
        "❌ Incorrect. The correct answer was (" ++ pyUpper correct_answer
          ++ ").\n\n" ++ explanation
  , quick_replies := some [next_question_button question_doc.exam_name] }

/-- `handle_postback` (src/app.py:152-182): decode the payload by prefix;
`ANSWER_` grades (silently dropping an unknown question id), `NEXT_`
requests a fresh question, anything else is ignored. -/
def handle_postback (s : BotState) (choice : Nat) (sender_id : Json)
    (payload : String) : Except PyErr (BotState × List Effect) :=
  if pyStartsWith payload "ANSWER_" then do
    let parts := pySplit payload
    let question_id ← listGetPy parts 1
    let user_answer ← listGetPy parts 2
    let qOpt ← get_question_by_id s question_id
    match qOpt with
    | some question_doc =>
        .ok (s, send_message s sender_id (answer_reply question_doc user_answer))
    | none => .ok (s, [])
  else if pyStartsWith payload "NEXT_" then do
    let exam_name ← listGetPy (pySplit payload) 1
    handle_new_question_request s choice sender_id exam_name
  else .ok (s, [])

/-- Python `needle in hay` on character lists: some suffix of `hay`
starts with `needle`. -/
def containsSub (needle : List Char) : List Char → Bool
  | [] => needle.isEmpty
  | c :: rest => needle.isPrefixOf (c :: rest) || containsSub needle rest

/-- Python `sub in s` for strings. -/
def pyIn (sub s : String) : Bool :=
  containsSub sub.data s.data

/-- The text-message keyword classification inside `webhook`
(src/app.py:104-111): uppercase, then `NEET`/`NEXT` before `JEE`. -/
def classify_exam (message_text : String) : Option String :=
  if pyIn "NEET" (pyUpper message_text) || pyIn "NEXT" (pyUpper message_text) then
    some "NEET"
  else if pyIn "JEE" (pyUpper message_text) then some "JEE"
  else none

/-- The fallback reply for unrecognized text (src/app.py:117). -/
def help_message : MessagePayload :=
  { text := "Hello! Type 'NEET' or 'JEE' to start a quiz.", quick_replies := none }

/-- One messaging event inside the `webhook` POST loop
(src/app.py:99-122): read `event['sender']['id']`, then dispatch on
`event.get('message') and event['message'].get('text')` versus
`event.get('postback')`. -/
def process_event (s : BotState) (choice : Nat) (event : Json) :
    Except PyErr (BotState × List Effect) := do
  let sender ← pyIndex event "sender"
  let sender_id ← pyIndex sender "id"
  let msgField ← pyGet event "message"
  let textTruthy ←
    if pyTruthy msgField then do
      let t ← pyGet msgField "text"
      pure (pyTruthy t)
    else pure false
  if textTruthy then do
    let msgObj ← pyIndex event "message"
    let txtJ ← pyIndex msgObj "text"
    let txt ← pyAsStr txtJ
    match classify_exam txt with
    | some exam_name => handle_new_question_request s choice sender_id exam_name
    | none => .ok (s, send_message s sender_id help_message)
  else do
    let pbField ← pyGet event "postback"
    if pyTruthy pbField then do
      let pbObj ← pyIndex event "postback"
      let payloadJ ← pyIndex pbObj "payload"
      let payload ← pyAsStr payloadJ
      handle_postback s choice sender_id payload
    else .ok (s, [])

/-- `for event in entry.get('messaging', [])`: fold the events through the
state, threading the `$sample` oracle (one entry consumed per event). -/
def process_events (s : BotState) (oracle : List Nat) :
    List Json → Except PyErr (BotState × List Effect × List Nat)
  | [] => .ok (s, [], oracle)
  | e :: rest => do
      let (s', effs) ← process_event s (oracle.headD 0) e
      let (s'', effs', oracle') ← process_events s' (oracle.tailD []) rest
      .ok (s'', effs ++ effs', oracle')

/-- `for entry in data.get('entry', [])`: iterate entries; each entry's
`messaging` field (default `[]`) must be a list. -/
def process_entries (s : BotState) (oracle : List Nat) :
    List Json → Except PyErr (BotState × List Effect × List Nat)
  | [] => .ok (s, [], oracle)
  | entry :: rest => do
      let msgsJ ← pyGetD entry "messaging" .arrNil
      let events ← pyList msgsJ
      let (s', effs, oracle') ← process_events s oracle events
      let (s'', effs', oracle'') ← process_entries s' oracle' rest
      .ok (s'', effs ++ effs', oracle'')

/-- The POST branch of `webhook` (src/app.py:95-124): when the body's
`object` tag is `"instagram"`, walk the entries and their messaging
events; always finish with `("OK", 200)`.  An `Except.error` models an
exception escaping the handler (Flask then answers 500, not 200). -/
def webhook_post (s : BotState) (oracle : List Nat) (data : Json) :
    Except PyErr (BotState × List Effect × String × Nat) := do
  let objTag ← pyGet data "object"
  if objTag = Json.str "instagram" then do
    let entriesJ ← pyGetD data "entry" .arrNil
    let entries ← pyList entriesJ
    let (s', effs, _) ← process_entries s oracle entries
    .ok (s', effs, "OK", 200)
  else .ok (s, [], "OK", 200)

/-- `request.args.get(k)`: first matching query parameter, else `None`. -/
def argsGet (args : List (String × String)) (k : String) : Option String :=
  (args.find? (fun p => p.1 = k)).map (·.2)

/-- The GET branch of `webhook` (src/app.py:89-92): return the challenge
when `hub.verify_token` matches the configured secret, else a 403.
Returning `None` from a Flask view raises a `TypeError`, modelled as an
error. -/
def webhook_get (args : List (String × String)) (meta_verify_token : Option String) :
    Except PyErr (String × Nat) :=
  if argsGet args "hub.verify_token" = meta_verify_token then
    match argsGet args "hub.challenge" with
    | some c => .ok (c, 200)
    | none => .error .typeError
  else .ok ("Verification token mismatch", 403)

/-- The effects actually performed by a handler run; an exception means
the handler raised before reaching its send, so no effects. -/
def effectsOf (r : Except PyErr (BotState × List Effect)) : List Effect :=
  match r with
  | .ok (_, effs) => effs
  | .error _ => []

theorem exceptBind_ok {α β : Type} (a : α) (f : α → Except PyErr β) :
    (Except.ok a >>= f) = f a := rfl

theorem exceptBind_err {α β : Type} (e : PyErr) (f : α → Except PyErr β) :
    ((Except.error e : Except PyErr α) >>= f) = Except.error e := rfl

/-- C7: for every verification GET request, a supplied verify token equal
to the configured secret returns the supplied challenge value with 200,
and a non-matching token returns the 403 rejection and never the
challenge (never any 200 response). -/
theorem C7_verification_handshake (args : List (String × String))
    (secret : Option String) :
    (argsGet args "hub.verify_token" = secret →
      ∀ ch, argsGet args "hub.challenge" = some ch →
        webhook_get args secret = .ok (ch, 200)) ∧
    (argsGet args "hub.verify_token" ≠ secret →
      webhook_get args secret = .ok ("Verification token mismatch", 403) ∧
      ∀ ch, webhook_get args secret ≠ .ok (ch, 200)) := by
  constructor
  · intro hmatch ch hch
    simp [webhook_get, hmatch, hch]
  · intro hmiss
    have hres : webhook_get args secret = .ok ("Verification token mismatch", 403) := by
      simp only [webhook_get, if_neg hmiss]
    refine ⟨hres, ?_⟩
    intro ch hcontra
    rw [hres] at hcontra
    have : (403 : Nat) = 200 := congrArg (fun r => match r with
      | Except.ok p => p.2
      | Except.error _ => 0) hcontra
    omega

/-- Witness for C7 at concrete inputs: a matching token returns the
challenge, a mismatching one the 403 rejection. -/
theorem C7_verification_handshake_witness :
    webhook_get [("hub.verify_token", "tok"), ("hub.challenge", "ch")] (some "tok")
      = .ok ("ch", 200) ∧
    webhook_get [("hub.verify_token", "bad"), ("hub.challenge", "ch")] (some "tok")
      = .ok ("Verification token mismatch", 403) :=
  ⟨(C7_verification_handshake
      [("hub.verify_token", "tok"), ("hub.challenge", "ch")] (some "tok")).1
        (by decide) "ch" (by decide),
   ((C7_verification_handshake
      [("hub.verify_token", "bad"), ("hub.challenge", "ch")] (some "tok")).2
        (by decide)).1⟩

/-- A concrete question bank entry used by witnesses. -/
def demoQ1 : Question :=
  { qid := "aaaaaaaaaaaaaaaaaaaaaaaa", exam_name := "NEET",
    question_text := "Q1?", optA := "O1", optB := "O2", optC := "O3", optD := "O4",
    correct_option := "b", explanation := some "Because." }

/-- A second concrete NEET question used by witnesses. -/
def demoQ2 : Question :=
  { qid := "bbbbbbbbbbbbbbbbbbbbbbbb", exam_name := "NEET",
    question_text := "Q2?", optA := "P1", optB := "P2", optC := "P3", optD := "P4",
    correct_option := "a", explanation := none }

/-- A concrete JEE question used by witnesses. -/
def demoQ3 : Question :=
  { qid := "cccccccccccccccccccccccc", exam_name := "JEE",
    question_text := "Q3?", optA := "R1", optB := "R2", optC := "R3", optD := "R4",
    correct_option := "d", explanation := some "Why." }

/-- A concrete healthy world used by witnesses. -/
def demoState : BotState :=
  { questions := [demoQ1, demoQ2, demoQ3], users := [], storeUp := true, netUp := true }

/-- A concrete sender id used by witnesses. -/
def demoUser : Json := Json.str "user1"

/-- A well-formed inbound text-message event, as built by the platform. -/
def textEvent (uid : Json) (txt : String) : Json :=
  Json.objOf [("sender", Json.objOf [("id", uid)]),
              ("message", Json.objOf [("text", Json.str txt)])]

/-- C10: for every non-empty text message, if its uppercased form contains
`NEET` or `NEXT` the user is served a NEET question; only otherwise, if it
contains `JEE`, a JEE question; otherwise the unknown-command help reply —
so NEET/NEXT take strict priority over JEE. -/
theorem C10_text_classification_priority (s : BotState) (c : Nat) (uid : Json)
    (txt : String) (h : txt ≠ "") :
    process_event s c (textEvent uid txt) =
      (if pyIn "NEET" (pyUpper txt) || pyIn "NEXT" (pyUpper txt) then
        handle_new_question_request s c uid "NEET"
      else if pyIn "JEE" (pyUpper txt) then
        handle_new_question_request s c uid "JEE"
      else .ok (s, send_message s uid help_message)) := by
  have hbool : (txt != "") = true := by simpa using h
  by_cases h1 : (pyIn "NEET" (pyUpper txt) || pyIn "NEXT" (pyUpper txt)) = true
  · simp [process_event, textEvent, pyIndex, pyGet, pyGetD, Json.objOf,
      Json.isObj, Json.objLookup, pyTruthy, pyAsStr, classify_exam, hbool, h1,
      exceptBind_ok, exceptBind_err]
    rw [if_pos (show pyIn "NEET" (pyUpper txt) = true ∨ pyIn "NEXT" (pyUpper txt) = true
      by simpa using h1)]
  · have h1' : ¬(pyIn "NEET" (pyUpper txt) = true ∨ pyIn "NEXT" (pyUpper txt) = true) := by
      simpa [Bool.or_eq_true] using h1
    by_cases h2 : pyIn "JEE" (pyUpper txt) = true <;>
      · simp [process_event, textEvent, pyIndex, pyGet, pyGetD, Json.objOf,
          Json.isObj, Json.objLookup, pyTruthy, pyAsStr, classify_exam, hbool, h1, h2,
          exceptBind_ok, exceptBind_err]
        rw [if_neg h1']

/-- Witness for C10: the message `"jee next"` contains both `JEE` and
`NEXT`, and is served a NEET question (priority), per the claim. -/
theorem C10_text_classification_priority_witness :
    process_event demoState 0 (textEvent demoUser "jee next") =
      handle_new_question_request demoState 0 demoUser "NEET" := by
  rw [C10_text_classification_priority demoState 0 demoUser "jee next" (by decide)]
  rw [if_pos (show (pyIn "NEET" (pyUpper "jee next") || pyIn "NEXT" (pyUpper "jee next"))
    = true from by decide)]

theorem listGetPy_eq_ok {α : Type} (xs : List α) (i : Nat) (x : α)
    (h : xs.get? i = some x) : listGetPy xs i = .ok x := by
  unfold listGetPy
  rw [h]

theorem listGetPy_eq_err {α : Type} (xs : List α) (i : Nat)
    (h : xs.get? i = none) : listGetPy xs i = .error .indexError := by
  unfold listGetPy
  rw [h]

theorem get_question_by_id_ok_some (s : BotState) (qid : String) (q : Question)
    (h : get_question_by_id s qid = .ok (some q)) :
    q ∈ s.questions ∧ objectIdNormalize q.qid = objectIdNormalize qid ∧
      objectIdValid qid = true ∧ s.storeUp = true := by
  simp only [get_question_by_id] at h
  split_ifs at h with hv hs
  simp only [Except.ok.injEq] at h
  refine ⟨List.mem_of_find?_eq_some h, ?_, ?_, ?_⟩
  · have := List.find?_some h
    simpa using this
  · simpa using hv
  · simpa using hs

/-- C5: an `ANSWER` postback whose decoded question id denotes no stored
question — no stored id matches it under `ObjectId` (case-insensitive
hex) comparison — produces no outbound message at all (the handler either
silently drops or raises before any send). -/
theorem C5_unknown_question_id_silent (s : BotState) (c : Nat) (uid : Json)
    (payload : String)
    (hstart : pyStartsWith payload "ANSWER_" = true)
    (hno : ∀ qid, (pySplit payload).get? 1 = some qid →
      ∀ q ∈ s.questions, objectIdNormalize q.qid ≠ objectIdNormalize qid) :
    ∀ r mp, Effect.send r mp ∉ effectsOf (handle_postback s c uid payload) := by
  intro r mp
  cases h1 : (pySplit payload).get? 1 with
  | none =>
      simp [handle_postback, hstart, listGetPy_eq_err _ _ h1, exceptBind_err, effectsOf]
  | some qid =>
      cases h2 : (pySplit payload).get? 2 with
      | none =>
          simp [handle_postback, hstart, listGetPy_eq_ok _ _ _ h1,
            listGetPy_eq_err _ _ h2, exceptBind_ok, exceptBind_err, effectsOf]
      | some ans =>
          cases hg : get_question_by_id s qid with
          | error e =>
              simp [handle_postback, hstart, listGetPy_eq_ok _ _ _ h1,
                listGetPy_eq_ok _ _ _ h2, hg, exceptBind_ok, exceptBind_err, effectsOf]
          | ok oq =>
              cases oq with
              | none =>
                  simp [handle_postback, hstart, listGetPy_eq_ok _ _ _ h1,
                    listGetPy_eq_ok _ _ _ h2, hg, exceptBind_ok, effectsOf]
              | some q =>
                  exfalso
                  obtain ⟨hmem, hqid, -, -⟩ := get_question_by_id_ok_some s qid q hg
                  exact hno qid h1 q hmem hqid

/-- Witness for C5: a syntactically valid id that denotes no stored
question (under case-insensitive comparison) is silently dropped. -/
theorem C5_unknown_question_id_silent_witness :
    pyStartsWith "ANSWER_dddddddddddddddddddddddd_a" "ANSWER_" = true ∧
    Effect.send demoUser (completion_message "NEET") ∉
      effectsOf (handle_postback demoState 0 demoUser
        "ANSWER_dddddddddddddddddddddddd_a") :=
  ⟨by decide,
   C5_unknown_question_id_silent demoState 0 demoUser
     "ANSWER_dddddddddddddddddddddddd_a" (by decide) (by decide)
     demoUser (completion_message "NEET")⟩

/-- The question set still open to a user inside an exam: the `$match`
stage of the aggregation in `fetch_unseen_question`. -/
def qualifyingOf (s : BotState) (user_id : Json) (exam_name : String) : List Question :=
  s.questions.filter
    (fun q => q.exam_name = exam_name && !((seenOf s user_id).contains q.qid))

theorem fetch_ok_facts (s : BotState) (c : Nat) (uid : Json) (exam : String)
    (oq : Option Question)
    (h : fetch_unseen_question s c uid exam = .ok oq) :
    s.storeUp = true ∧ (seenOf s uid).all objectIdValid = true := by
  simp only [fetch_unseen_question] at h
  split_ifs at h with h1 h2
  exact ⟨by simpa using h1, by simpa using h2⟩

theorem fetch_eq_qualifying (s : BotState) (c : Nat) (uid : Json) (exam : String)
    (hs : s.storeUp = true) (hv : (seenOf s uid).all objectIdValid = true) :
    fetch_unseen_question s c uid exam =
      .ok ((qualifyingOf s uid exam).get? (c % (qualifyingOf s uid exam).length)) := by
  simp [fetch_unseen_question, hs, hv, qualifyingOf]

theorem fetch_some_facts (s : BotState) (c : Nat) (uid : Json) (exam : String)
    (q : Question)
    (h : fetch_unseen_question s c uid exam = .ok (some q)) :
    q ∈ s.questions ∧ q.exam_name = exam ∧ (seenOf s uid).contains q.qid = false := by
  simp only [fetch_unseen_question] at h
  split_ifs at h with h1 h2
  simp only [Except.ok.injEq] at h
  have hmem := List.get?_mem h
  have := List.mem_filter.mp hmem
  refine ⟨this.1, ?_, ?_⟩
  · have := this.2
    simp only [Bool.and_eq_true, decide_eq_true_eq] at this
    exact this.1
  · have := this.2
    simp only [Bool.and_eq_true, Bool.not_eq_true'] at this
    exact this.2

theorem handle_new_question_request_some (s : BotState) (c : Nat) (uid : Json)
    (exam : String) (q : Question)
    (hf : fetch_unseen_question s c uid exam = .ok (some q)) :
    handle_new_question_request s c uid exam = .ok
      ({ s with users := pushSeen s.users uid q.qid },
       Effect.markSeen uid q.qid ::
         send_message { s with users := pushSeen s.users uid q.qid } uid
           (question_message q)) := by
  have hs : s.storeUp = true := (fetch_ok_facts s c uid exam _ hf).1
  simp [handle_new_question_request, hf, exceptBind_ok, mark_question_as_seen, hs]

theorem handle_new_question_request_none (s : BotState) (c : Nat) (uid : Json)
    (exam : String)
    (hf : fetch_unseen_question s c uid exam = .ok none) :
    handle_new_question_request s c uid exam =
      .ok (s, send_message s uid (completion_message exam)) := by
  simp [handle_new_question_request, hf, exceptBind_ok]

theorem handle_new_question_request_err (s : BotState) (c : Nat) (uid : Json)
    (exam : String) (e : PyErr)
    (hf : fetch_unseen_question s c uid exam = .error e) :
    handle_new_question_request s c uid exam = .error e := by
  simp [handle_new_question_request, hf, exceptBind_err]

theorem seen_pushSeen (users : List (Json × List String)) (uid : Json) (qid : String) :
    (((pushSeen users uid qid).find? (fun p => p.1 = uid)).map (·.2)).getD [] =
      ((users.find? (fun p => p.1 = uid)).map (·.2)).getD [] ++ [qid] := by
  induction users with
  | nil => simp [pushSeen]
  | cons hd tl ih =>
      obtain ⟨k, ids⟩ := hd
      by_cases hk : k = uid
      · subst hk
        simp [pushSeen, List.find?]
      · simp only [pushSeen, if_neg hk]
        rw [List.find?_cons_of_neg, List.find?_cons_of_neg]
        · exact ih
        · simpa using hk
        · simpa using hk

theorem seenOf_pushSeen (s : BotState) (uid : Json) (qid : String) :
    seenOf { s with users := pushSeen s.users uid qid } uid = seenOf s uid ++ [qid] := by
  simp only [seenOf]
  exact seen_pushSeen s.users uid qid

theorem handle_postback_answer_cases (s : BotState) (c : Nat) (uid : Json)
    (payload : String) (s' : BotState) (effs : List Effect)
    (hstart : pyStartsWith payload "ANSWER_" = true)
    (hrun : handle_postback s c uid payload = .ok (s', effs)) :
    s' = s ∧ ∃ qid ans, (pySplit payload).get? 1 = some qid ∧
      (pySplit payload).get? 2 = some ans ∧
      ((∃ q, get_question_by_id s qid = .ok (some q) ∧
          effs = send_message s uid (answer_reply q ans)) ∨
       (get_question_by_id s qid = .ok none ∧ effs = [])) := by
  cases h1 : (pySplit payload).get? 1 with
  | none =>
      have hpb : handle_postback s c uid payload = .error .indexError := by
        simp [handle_postback, hstart, listGetPy_eq_err _ _ h1, exceptBind_err]
      rw [hpb] at hrun
      exact absurd hrun (by simp)
  | some qid =>
      cases h2 : (pySplit payload).get? 2 with
      | none =>
          have hpb : handle_postback s c uid payload = .error .indexError := by
            simp [handle_postback, hstart, listGetPy_eq_ok _ _ _ h1,
              listGetPy_eq_err _ _ h2, exceptBind_ok, exceptBind_err]
          rw [hpb] at hrun
          exact absurd hrun (by simp)
      | some ans =>
          cases hg : get_question_by_id s qid with
          | error e =>
              have hpb : handle_postback s c uid payload = .error e := by
                simp [handle_postback, hstart, listGetPy_eq_ok _ _ _ h1,
                  listGetPy_eq_ok _ _ _ h2, hg, exceptBind_ok, exceptBind_err]
              rw [hpb] at hrun
              exact absurd hrun (by simp)
          | ok oq =>
              cases oq with
              | none =>
                  have hpb : handle_postback s c uid payload = .ok (s, []) := by
                    simp [handle_postback, hstart, listGetPy_eq_ok _ _ _ h1,
                      listGetPy_eq_ok _ _ _ h2, hg, exceptBind_ok]
                  rw [hpb] at hrun
                  simp only [Except.ok.injEq, Prod.mk.injEq] at hrun
                  exact ⟨hrun.1.symm, qid, ans, rfl, rfl, Or.inr ⟨hg, hrun.2.symm⟩⟩
              | some q =>
                  have hpb : handle_postback s c uid payload =
                      .ok (s, send_message s uid (answer_reply q ans)) := by
                    simp [handle_postback, hstart, listGetPy_eq_ok _ _ _ h1,
                      listGetPy_eq_ok _ _ _ h2, hg, exceptBind_ok]
                  rw [hpb] at hrun
                  simp only [Except.ok.injEq, Prod.mk.injEq] at hrun
                  exact ⟨hrun.1.symm, qid, ans, rfl, rfl,
                    Or.inl ⟨q, hg, hrun.2.symm⟩⟩

/-- C6: whenever a graded-answer reply (the unique single-button message)
is sent, that button is the "Next Question" button and its embedded
category is exactly the `exam_name` stored in the looked-up question
document — whatever the client-supplied payload was. -/
theorem C6_next_button_category (s : BotState) (c : Nat) (uid : Json)
    (payload : String) (s' : BotState) (effs : List Effect) (r : Json)
    (mp : MessagePayload) (b : Button)
    (hrun : handle_postback s c uid payload = .ok (s', effs))
    (hsend : Effect.send r mp ∈ effs)
    (hqr : mp.quick_replies = some [b]) :
    b.title = "Next Question" ∧
    ∃ qid q, (pySplit payload).get? 1 = some qid ∧
      get_question_by_id s qid = .ok (some q) ∧
      b.payload = "NEXT_" ++ q.exam_name := by
  by_cases hstart : pyStartsWith payload "ANSWER_" = true
  · obtain ⟨hs', qid, ans, h1, h2, hcases⟩ :=
      handle_postback_answer_cases s c uid payload s' effs hstart hrun
    rcases hcases with ⟨q, hq, heffs⟩ | ⟨hq, heffs⟩
    · subst heffs
      cases hnet : s.netUp with
      | false => simp [send_message, hnet] at hsend
      | true =>
          simp only [send_message, hnet, if_true, List.mem_singleton] at hsend
          have hmp : mp = answer_reply q ans := by
            injection hsend
          rw [hmp] at hqr
          simp only [answer_reply, Option.some.injEq] at hqr
          have hb : b = next_question_button q.exam_name :=
            (List.head_eq_of_cons_eq hqr).symm
          rw [hb]
          exact ⟨rfl, qid, q, h1, hq, rfl⟩
    · subst heffs
      simp at hsend
  · by_cases hnext : pyStartsWith payload "NEXT_" = true
    · cases h1 : (pySplit payload).get? 1 with
      | none =>
          have hpb : handle_postback s c uid payload = .error .indexError := by
            simp [handle_postback, hstart, hnext, listGetPy_eq_err _ _ h1,
              exceptBind_err]
          rw [hpb] at hrun
          exact absurd hrun (by simp)
      | some exam =>
          have hpb : handle_postback s c uid payload =
              handle_new_question_request s c uid exam := by
            simp [handle_postback, hstart, hnext, listGetPy_eq_ok _ _ _ h1,
              exceptBind_ok]
          rw [hpb] at hrun
          cases hf : fetch_unseen_question s c uid exam with
          | error e =>
              rw [handle_new_question_request_err s c uid exam e hf] at hrun
              exact absurd hrun (by simp)
          | ok oq =>
              cases oq with
              | none =>
                  rw [handle_new_question_request_none s c uid exam hf] at hrun
                  simp only [Except.ok.injEq, Prod.mk.injEq] at hrun
                  have heffs := hrun.2
                  rw [← heffs] at hsend
                  cases hnet : s.netUp with
                  | false => simp [send_message, hnet] at hsend
                  | true =>
                      simp only [send_message, hnet, if_true,
                        List.mem_singleton] at hsend
                      have hmp : mp = completion_message exam := by
                        injection hsend
                      rw [hmp] at hqr
                      simp [completion_message] at hqr
              | some q =>
                  rw [handle_new_question_request_some s c uid exam q hf] at hrun
                  simp only [Except.ok.injEq, Prod.mk.injEq] at hrun
                  have heffs := hrun.2
                  rw [← heffs] at hsend
                  simp only [List.mem_cons] at hsend
                  rcases hsend with habs | hsend
                  · exact absurd habs (by simp)
                  · cases hnet : s.netUp with
                    | false => simp [send_message, hnet] at hsend
                    | true =>
                        simp only [send_message, hnet, if_true,
                          List.mem_singleton] at hsend
                        have hmp : mp = question_message q := by
                          injection hsend
                        rw [hmp] at hqr
                        simp [question_message, answer_buttons] at hqr
    · have hpb : handle_postback s c uid payload = .ok (s, []) := by
        simp [handle_postback, hstart, hnext]
      rw [hpb] at hrun
      simp only [Except.ok.injEq, Prod.mk.injEq] at hrun
      have heffs := hrun.2
      rw [← heffs] at hsend
      simp at hsend

theorem isPrefixOf_append_self (a b : List Char) : a.isPrefixOf (a ++ b) = true := by
  induction a with
  | nil => simp [List.isPrefixOf]
  | cons c cs ih => simp [List.isPrefixOf, ih]

theorem pyStartsWith_append (p t : String) : pyStartsWith (p ++ t) p = true := by
  simp only [pyStartsWith, String.data_append]
  exact isPrefixOf_append_self p.data t.data

theorem splitUnd_ne_nil (l : List Char) : splitUnd l ≠ [] := by
  cases l with
  | nil => simp [splitUnd]
  | cons c cs =>
      simp only [splitUnd]
      split
      · simp
      · split <;> simp

theorem splitUnd_no_sep (a : List Char) (h : a.contains '_' = false) :
    splitUnd a = [a] := by
  induction a with
  | nil => rfl
  | cons c cs ih =>
      simp only [List.contains_cons, Bool.or_eq_false_iff] at h
      have hc : ¬c = '_' := by
        intro hcc
        subst hcc
        simp at h
      simp [splitUnd, hc, ih h.2]

theorem splitUnd_sep_append (a b : List Char) (h : a.contains '_' = false) :
    splitUnd (a ++ '_' :: b) = a :: splitUnd b := by
  induction a with
  | nil => simp [splitUnd]
  | cons c cs ih =>
      simp only [List.contains_cons, Bool.or_eq_false_iff] at h
      have hc : ¬c = '_' := by
        intro hcc
        subst hcc
        simp at h
      have ihr := ih h.2
      simp only [List.cons_append, splitUnd, if_neg hc, List.append_eq, ihr]

theorem objectIdValid_no_underscore (s : String) (h : objectIdValid s = true) :
    s.data.contains '_' = false := by
  simp only [objectIdValid, Bool.and_eq_true] at h
  obtain ⟨-, hall⟩ := h
  by_contra hc
  rw [Bool.not_eq_false] at hc
  have hmem : '_' ∈ s.data := by simpa using hc
  have := List.all_eq_true.mp hall '_' hmem
  exact absurd this (by decide)

theorem pySplit_answer_payload (qid letter : String)
    (hq : qid.data.contains '_' = false)
    (hl : letter.data.contains '_' = false) :
    pySplit ("ANSWER_" ++ qid ++ "_" ++ letter) = ["ANSWER", qid, letter] := by
  have hdata : ("ANSWER_" ++ qid ++ "_" ++ letter).data
      = "ANSWER".data ++ '_' :: (qid.data ++ '_' :: letter.data) := by
    simp only [String.data_append, List.append_assoc]
    rfl
  have hA : ("ANSWER".data).contains '_' = false := by decide
  simp only [pySplit, hdata, splitUnd_sep_append _ _ hA,
    splitUnd_sep_append _ _ hq, splitUnd_no_sep _ hl]
  rfl

/-- The correctness verdict visible in a grading reply: `true` when the
single sent message announces a correct answer (leads with the check
mark), `false` when it announces an incorrect one, `none` when no single
message was sent. -/
def grading_verdict (r : Except PyErr (BotState × List Effect)) : Option Bool :=
  match effectsOf r with
  | [Effect.send _ mp] => some (pyStartsWith mp.text "✅")
  | _ => none

theorem correct_reply_starts_check (e : String) :
    pyStartsWith ("✅ Correct!\n\n" ++ e) "✅" = true := by
  have : ("✅ Correct!\n\n" ++ e).data = '✅' :: (" Correct!\n\n".data ++ e.data) := by
    rw [String.data_append]
    rfl
  simp [pyStartsWith, this, List.isPrefixOf]

theorem incorrect_reply_starts_cross (co e : String) :
    pyStartsWith ("❌ Incorrect. The correct answer was (" ++ co ++ ").\n\n" ++ e)
      "✅" = false := by
  have : ("❌ Incorrect. The correct answer was (" ++ co ++ ").\n\n" ++ e).data
      = '❌' :: (" Incorrect. The correct answer was (".data
          ++ (co.data ++ (").\n\n".data ++ e.data))) := by
    simp only [String.data_append, List.append_assoc]
    rfl
  simp [pyStartsWith, this, List.isPrefixOf]

/-- C2 counterexample: grading is case-sensitive, not case-insensitive.
Against the stored question with correct option `"b"`, the lowercase
submission `b` is graded correct while the uppercase submission `B` of the
same letter is graded incorrect — the verdicts differ. -/
theorem C2_counterexample_case_sensitivity :
    grading_verdict (handle_postback demoState 0 demoUser
        "ANSWER_aaaaaaaaaaaaaaaaaaaaaaaa_b") = some true ∧
    grading_verdict (handle_postback demoState 0 demoUser
        "ANSWER_aaaaaaaaaaaaaaaaaaaaaaaa_B") = some false := by
  constructor <;> rfl

/-- C2 amended: grading compares the submitted option letter verbatim
(case-sensitively) with the stored correct letter; the verdict is `true`
exactly when the submitted string equals `correct_option`, so `"b"` and
`"B"` agree only when neither matches the stored letter. -/
theorem C2_amended_grading_case_sensitive (s : BotState) (c : Nat) (uid : Json)
    (q : Question) (letter : String)
    (hq : get_question_by_id s q.qid = .ok (some q))
    (hnet : s.netUp = true)
    (hl : letter.data.contains '_' = false) :
    grading_verdict (handle_postback s c uid ("ANSWER_" ++ q.qid ++ "_" ++ letter))
      = some (decide (letter = q.correct_option)) := by
  have hvalid : objectIdValid q.qid = true :=
    (get_question_by_id_ok_some s q.qid q hq).2.2.1
  have hqu : q.qid.data.contains '_' = false :=
    objectIdValid_no_underscore q.qid hvalid
  have hsplit := pySplit_answer_payload q.qid letter hqu hl
  have hstart : pyStartsWith ("ANSWER_" ++ q.qid ++ "_" ++ letter) "ANSWER_" = true := by
    have hassoc : "ANSWER_" ++ q.qid ++ "_" ++ letter
        = "ANSWER_" ++ (q.qid ++ "_" ++ letter) := by
      rw [String.append_assoc, String.append_assoc, String.append_assoc]
    rw [hassoc]
    exact pyStartsWith_append "ANSWER_" (q.qid ++ "_" ++ letter)
  have h1 : (pySplit ("ANSWER_" ++ q.qid ++ "_" ++ letter)).get? 1 = some q.qid := by
    rw [hsplit]
    rfl
  have h2 : (pySplit ("ANSWER_" ++ q.qid ++ "_" ++ letter)).get? 2 = some letter := by
    rw [hsplit]
    rfl
  have hpb : handle_postback s c uid ("ANSWER_" ++ q.qid ++ "_" ++ letter)
      = .ok (s, send_message s uid (answer_reply q letter)) := by
    simp [handle_postback, hstart, listGetPy_eq_ok _ _ _ h1,
      listGetPy_eq_ok _ _ _ h2, hq, exceptBind_ok]
  rw [hpb]
  by_cases hc : letter = q.correct_option
  · simp [grading_verdict, effectsOf, send_message, hnet, answer_reply, hc,
      correct_reply_starts_check]
  · simp [grading_verdict, effectsOf, send_message, hnet, answer_reply, hc,
      incorrect_reply_starts_cross]

/-- Witness for the amended C2 at a concrete input: submitting `"B"`
against the stored correct option `"b"` is graded by exact comparison
(verdict `false`). -/
theorem C2_amended_grading_case_sensitive_witness :
    grading_verdict (handle_postback demoState 0 demoUser
        ("ANSWER_" ++ demoQ1.qid ++ "_" ++ "B"))
      = some (decide (("B" : String) = demoQ1.correct_option)) :=
  C2_amended_grading_case_sensitive demoState 0 demoUser demoQ1 "B"
    rfl rfl (by decide)

/-- Witness for C6 at a concrete graded answer: the next-button category
is the stored `exam_name` of the answered question. -/
theorem C6_next_button_category_witness :
    (next_question_button "NEET").title = "Next Question" ∧
    ∃ qid q, (pySplit "ANSWER_aaaaaaaaaaaaaaaaaaaaaaaa_c").get? 1 = some qid ∧
      get_question_by_id demoState qid = .ok (some q) ∧
      (next_question_button "NEET").payload = "NEXT_" ++ q.exam_name :=
  C6_next_button_category demoState 0 demoUser "ANSWER_aaaaaaaaaaaaaaaaaaaaaaaa_c"
    demoState [Effect.send demoUser (answer_reply demoQ1 "c")]
    demoUser (answer_reply demoQ1 "c") (next_question_button "NEET")
    rfl (by simp) rfl

theorem Json.objOf_isObj (fs : List (String × Json)) : (Json.objOf fs).isObj = true := by
  cases fs with
  | nil => rfl
  | cons hd tl =>
      obtain ⟨k, v⟩ := hd
      rfl

/-- An instagram-tagged POST body carrying exactly one messaging event. -/
def single_event_body (ev : Json) : Json :=
  Json.objOf [("object", Json.str "instagram"),
              ("entry", Json.arrOf [Json.objOf [("messaging", Json.arrOf [ev])]])]

/-- A messaging event with a `sender` object but no `id` inside it. -/
def event_without_sender : Json := Json.objOf []

/-- C3 counterexample: an instagram-tagged body whose messaging event has
no sender raises an uncaught `KeyError` (`event['sender']`), so the
handler does not return the success response — Flask answers 500. -/
theorem C3_counterexample_missing_sender :
    webhook_post demoState [] (single_event_body event_without_sender)
      = .error .keyError := by
  rfl

/-- C3 amended: shape mismatches at the body level (wrong or missing
`object` tag, missing `entry` list) are ignored and acknowledged with
`("OK", 200)`; but a messaging event lacking its sender id raises an
uncaught `KeyError`, so not every malformed body is acknowledged. -/
theorem C3_amended_top_level_ignored (s : BotState) (oracle : List Nat)
    (fs : List (String × Json)) :
    ((Json.objOf fs).objLookup "object" ≠ some (Json.str "instagram") →
      webhook_post s oracle (Json.objOf fs) = .ok (s, [], "OK", 200)) ∧
    ((Json.objOf fs).objLookup "object" = some (Json.str "instagram") →
      (Json.objOf fs).objLookup "entry" = none →
      webhook_post s oracle (Json.objOf fs) = .ok (s, [], "OK", 200)) := by
  constructor
  · intro hno
    have htag : ((Json.objOf fs).objLookup "object").getD Json.null
        ≠ Json.str "instagram" := by
      cases hl : (Json.objOf fs).objLookup "object" with
      | none => simp
      | some v =>
          rw [hl] at hno
          simpa using hno
    simp [webhook_post, pyGet, pyGetD, Json.objOf_isObj, htag, exceptBind_ok]
  · intro hobj hent
    simp [webhook_post, pyGet, pyGetD, Json.objOf_isObj, hobj, hent,
      pyList, process_entries, exceptBind_ok]

/-- Witness for the amended C3: a body tagged for another platform is
acknowledged with success and ignored. -/
theorem C3_amended_top_level_ignored_witness :
    webhook_post demoState [] (Json.objOf [("object", Json.str "whatsapp")])
      = .ok (demoState, [], "OK", 200) :=
  (C3_amended_top_level_ignored demoState [] [("object", Json.str "whatsapp")]).1
    (by decide)

theorem process_event_text (s : BotState) (c : Nat) (uid : Json) (txt : String)
    (h : txt ≠ "") :
    process_event s c (textEvent uid txt) =
      match classify_exam txt with
      | some exam => handle_new_question_request s c uid exam
      | none => .ok (s, send_message s uid help_message) := by
  have hbool : (txt != "") = true := by simpa using h
  simp [process_event, textEvent, pyIndex, pyGet, pyGetD, Json.objOf,
    Json.isObj, Json.objLookup, pyTruthy, pyAsStr, hbool,
    exceptBind_ok, exceptBind_err]

theorem webhook_post_single_event_err (s : BotState) (oracle : List Nat)
    (ev : Json) (e : PyErr)
    (h : process_event s (oracle.headD 0) ev = .error e) :
    webhook_post s oracle (single_event_body ev) = .error e := by
  rw [List.headD_eq_head?_getD] at h
  simp [webhook_post, single_event_body, pyGet, pyGetD, Json.objOf, Json.isObj,
    Json.objLookup, Json.arrOf, pyList, process_entries, process_events, h,
    exceptBind_ok, exceptBind_err]

/-- The demo world with the question store unreachable. -/
def downState : BotState :=
  { questions := [demoQ1, demoQ2, demoQ3], users := [], storeUp := false, netUp := true }

/-- C4 counterexample: with the store unreachable, a `NEET` text message
makes the store failure escape the dispatch loop as an uncaught exception
(`webhook` returns an error, not `("OK", 200)`) — it is not caught and
logged inside the operation. -/
theorem C4_counterexample_store_failure_propagates :
    webhook_post downState [0] (single_event_body (textEvent demoUser "NEET"))
      = .error .storeError := by
  rfl

/-- C4 amended: a store failure during question selection or seen-marking
is NOT caught inside the operation: it propagates out of the dispatch
loop to the HTTP layer as an exception.  The user-visible effect is still
that no reply is sent (every send comes after the store operations). -/
theorem C4_amended_store_failure_uncaught (s : BotState) (c : Nat)
    (oracle : List Nat) (uid : Json) (exam txt : String)
    (hdown : s.storeUp = false) :
    handle_new_question_request s c uid exam = .error .storeError ∧
    effectsOf (handle_new_question_request s c uid exam) = [] ∧
    (txt ≠ "" → classify_exam txt = some exam →
      webhook_post s oracle (single_event_body (textEvent uid txt))
        = .error .storeError) := by
  have hf : fetch_unseen_question s c uid exam = .error .storeError := by
    simp [fetch_unseen_question, hdown]
  have h1 : handle_new_question_request s c uid exam = .error .storeError :=
    handle_new_question_request_err s c uid exam .storeError hf
  refine ⟨h1, by rw [h1]; rfl, ?_⟩
  intro htxt hcls
  apply webhook_post_single_event_err
  rw [process_event_text s (oracle.headD 0) uid txt htxt, hcls]
  have hf' : fetch_unseen_question s (oracle.headD 0) uid exam
      = .error .storeError := by
    simp [fetch_unseen_question, hdown]
  exact handle_new_question_request_err s (oracle.headD 0) uid exam .storeError hf'

/-- Witness for the amended C4 at a concrete input: with the store down,
the `NEET` request errors with no effects. -/
theorem C4_amended_store_failure_uncaught_witness :
    handle_new_question_request downState 0 demoUser "NEET" = .error .storeError ∧
    effectsOf (handle_new_question_request downState 0 demoUser "NEET") = [] ∧
    (("NEET" : String) ≠ "" → classify_exam "NEET" = some "NEET" →
      webhook_post downState [0] (single_event_body (textEvent demoUser "NEET"))
        = .error .storeError) :=
  C4_amended_store_failure_uncaught downState 0 [0] demoUser "NEET" "NEET" rfl

/-- C9: whenever question selection returns a question, its id is recorded
in the user's seen set in the very next step — the `markSeen` store write
is effect 0, strictly before any outbound send — so a served-but-never-
answered question is still consumed. -/
theorem C9_marked_seen_before_send (s : BotState) (c : Nat) (uid : Json)
    (exam : String) (q : Question) (s' : BotState) (effs : List Effect)
    (hf : fetch_unseen_question s c uid exam = .ok (some q))
    (hrun : handle_new_question_request s c uid exam = .ok (s', effs)) :
    q.qid ∈ seenOf s' uid ∧
    effs.get? 0 = some (Effect.markSeen uid q.qid) ∧
    ∀ i r mp, effs.get? i = some (Effect.send r mp) → 0 < i := by
  rw [handle_new_question_request_some s c uid exam q hf] at hrun
  simp only [Except.ok.injEq, Prod.mk.injEq] at hrun
  obtain ⟨hs', heffs⟩ := hrun
  refine ⟨?_, ?_, ?_⟩
  · rw [← hs', seenOf_pushSeen]
    simp
  · rw [← heffs]
    rfl
  · intro i r mp hi
    rw [← heffs] at hi
    cases i with
    | zero => exact absurd hi (by simp)
    | succ n => exact Nat.succ_pos n

/-- Witness for C9 at a concrete input: serving the first NEET question
records it as seen, with the store write strictly before the send. -/
theorem C9_marked_seen_before_send_witness :
    demoQ1.qid ∈ seenOf
      { demoState with users := pushSeen demoState.users demoUser demoQ1.qid }
      demoUser ∧
    ([Effect.markSeen demoUser demoQ1.qid,
      Effect.send demoUser (question_message demoQ1)].get? 0
        = some (Effect.markSeen demoUser demoQ1.qid)) ∧
    ∀ i r mp,
      [Effect.markSeen demoUser demoQ1.qid,
       Effect.send demoUser (question_message demoQ1)].get? i
          = some (Effect.send r mp) → 0 < i :=
  C9_marked_seen_before_send demoState 0 demoUser "NEET" demoQ1
    { demoState with users := pushSeen demoState.users demoUser demoQ1.qid }
    [Effect.markSeen demoUser demoQ1.qid,
     Effect.send demoUser (question_message demoQ1)]
    rfl rfl

theorem objectIdCanonical_valid (s : String) (h : objectIdCanonical s = true) :
    objectIdValid s = true := by
  simp only [objectIdCanonical, Bool.and_eq_true] at h
  simp only [objectIdValid, Bool.and_eq_true]
  refine ⟨h.1, ?_⟩
  rw [List.all_eq_true]
  intro c hc
  have hmem : c ∈ "0123456789abcdef".data := by
    simpa using List.all_eq_true.mp h.2 c hc
  have hext : c ∈ "0123456789abcdefABCDEF".data := by
    have hsplit2 : "0123456789abcdefABCDEF".data
        = "0123456789abcdef".data ++ "ABCDEF".data := rfl
    rw [hsplit2]
    exact List.mem_append_left _ hmem
  simpa using hext

theorem map_toLower_eq_self (l : List Char)
    (h : ∀ c ∈ l, ("0123456789abcdef".data).contains c = true) :
    l.map Char.toLower = l := by
  induction l with
  | nil => rfl
  | cons c cs ih =>
      have hmem : c ∈ "0123456789abcdef".data := by
        simpa using h c (List.mem_cons_self c cs)
      have htl : Char.toLower c = c := by fin_cases hmem <;> rfl
      simp only [List.map_cons, htl,
        ih (fun x hx => h x (List.mem_cons_of_mem c hx))]

theorem objectIdCanonical_normalize (s : String) (h : objectIdCanonical s = true) :
    objectIdNormalize s = s := by
  simp only [objectIdCanonical, Bool.and_eq_true] at h
  have hmap := map_toLower_eq_self s.data (List.all_eq_true.mp h.2)
  rw [objectIdNormalize, hmap]

theorem find?_qid_of_nodup (l : List Question) (q : Question)
    (hcanon : ∀ q' ∈ l, objectIdCanonical q'.qid = true)
    (hnd : (l.map Question.qid).Nodup) (hm : q ∈ l) :
    l.find? (fun q' => objectIdNormalize q'.qid = objectIdNormalize q.qid)
      = some q := by
  have hqn : objectIdNormalize q.qid = q.qid :=
    objectIdCanonical_normalize q.qid (hcanon q hm)
  induction l with
  | nil => cases hm
  | cons hd tl ih =>
      rw [List.map_cons, List.nodup_cons] at hnd
      have hhd : objectIdNormalize hd.qid = hd.qid :=
        objectIdCanonical_normalize hd.qid (hcanon hd (List.mem_cons_self hd tl))
      by_cases hh : hd.qid = q.qid
      · have hq : q = hd := by
          cases List.mem_cons.mp hm with
          | inl h => exact h
          | inr h =>
              exfalso
              exact hnd.1 (hh ▸ List.mem_map_of_mem Question.qid h)
        rw [List.find?_cons_of_pos, hq]
        rw [hhd, hqn]
        simpa using hh
      · rw [List.find?_cons_of_neg]
        · have hmt : q ∈ tl := by
            cases List.mem_cons.mp hm with
            | inl h => exact absurd (h ▸ rfl) hh
            | inr h => exact h
          exact ih (fun q' h' => hcanon q' (List.mem_cons_of_mem hd h')) hnd.2 hmt
        · rw [hhd, hqn]
          simpa using hh

/-- C8: the question-serving reply carries exactly the four lettered
buttons A–D; each button's payload decodes (via the postback decoder's
split) back to exactly the served question's id and its letter, and that
id looks up the same question in the store afterwards. -/
theorem C8_four_buttons_roundtrip (s : BotState) (c : Nat) (uid : Json)
    (exam : String) (q : Question) (s' : BotState) (effs : List Effect)
    (hnodup : (s.questions.map Question.qid).Nodup)
    (hvalid : ∀ q' ∈ s.questions, objectIdCanonical q'.qid = true)
    (hnet : s.netUp = true)
    (hf : fetch_unseen_question s c uid exam = .ok (some q))
    (hrun : handle_new_question_request s c uid exam = .ok (s', effs)) :
    ∃ btns, Effect.send uid
        { text := question_text_msg q, quick_replies := some btns } ∈ effs ∧
      btns.map Button.title = ["A", "B", "C", "D"] ∧
      ∀ i letter, (["a", "b", "c", "d"] : List String).get? i = some letter →
        ∃ b, btns.get? i = some b ∧
          pySplit b.payload = ["ANSWER", q.qid, letter] ∧
          get_question_by_id s' q.qid = .ok (some q) := by
  have hfacts := fetch_some_facts s c uid exam q hf
  have hsUp : s.storeUp = true := (fetch_ok_facts s c uid exam _ hf).1
  have hvq : objectIdCanonical q.qid = true := hvalid q hfacts.1
  have hvq' : objectIdValid q.qid = true := objectIdCanonical_valid q.qid hvq
  have hqu : q.qid.data.contains '_' = false :=
    objectIdValid_no_underscore q.qid hvq'
  rw [handle_new_question_request_some s c uid exam q hf] at hrun
  simp only [Except.ok.injEq, Prod.mk.injEq] at hrun
  obtain ⟨hs', heffs⟩ := hrun
  have hlookup : get_question_by_id s' q.qid = .ok (some q) := by
    rw [← hs']
    simp only [get_question_by_id, hvq', hsUp, Bool.not_true, Bool.false_eq_true,
      if_false]
    rw [find?_qid_of_nodup s.questions q hvalid hnodup hfacts.1]
  refine ⟨answer_buttons q, ?_, by simp [answer_buttons], ?_⟩
  · rw [← heffs]
    simp [send_message, hnet, question_message]
  · intro i letter hlet
    have hsplit : ∀ l : String, l.data.contains '_' = false →
        pySplit ("ANSWER_" ++ q.qid ++ ("_" ++ l)) = ["ANSWER", q.qid, l] := by
      intro l hl
      rw [← String.append_assoc ("ANSWER_" ++ q.qid) "_" l]
      exact pySplit_answer_payload q.qid l hqu hl
    match i, hlet with
    | 0, hlet =>
        refine ⟨(answer_buttons q).get ⟨0, by simp [answer_buttons]⟩, rfl, ?_, hlookup⟩
        have : letter = "a" := by injection hlet with h; exact h.symm
        subst this
        exact hsplit "a" (by decide)
    | 1, hlet =>
        refine ⟨(answer_buttons q).get ⟨1, by simp [answer_buttons]⟩, rfl, ?_, hlookup⟩
        have : letter = "b" := by injection hlet with h; exact h.symm
        subst this
        exact hsplit "b" (by decide)
    | 2, hlet =>
        refine ⟨(answer_buttons q).get ⟨2, by simp [answer_buttons]⟩, rfl, ?_, hlookup⟩
        have : letter = "c" := by injection hlet with h; exact h.symm
        subst this
        exact hsplit "c" (by decide)
    | 3, hlet =>
        refine ⟨(answer_buttons q).get ⟨3, by simp [answer_buttons]⟩, rfl, ?_, hlookup⟩
        have : letter = "d" := by injection hlet with h; exact h.symm
        subst this
        exact hsplit "d" (by decide)

/-- Witness for C8 at a concrete serve: four buttons A–D whose payloads
round-trip through the decoder to the served question. -/
theorem C8_four_buttons_roundtrip_witness :
    ∃ btns, Effect.send demoUser
        { text := question_text_msg demoQ1, quick_replies := some btns } ∈
          [Effect.markSeen demoUser demoQ1.qid,
           Effect.send demoUser (question_message demoQ1)] ∧
      btns.map Button.title = ["A", "B", "C", "D"] ∧
      ∀ i letter, (["a", "b", "c", "d"] : List String).get? i = some letter →
        ∃ b, btns.get? i = some b ∧
          pySplit b.payload = ["ANSWER", demoQ1.qid, letter] ∧
          get_question_by_id
            { demoState with users := pushSeen demoState.users demoUser demoQ1.qid }
            demoQ1.qid = .ok (some demoQ1) :=
  C8_four_buttons_roundtrip demoState 0 demoUser "NEET" demoQ1
    { demoState with users := pushSeen demoState.users demoUser demoQ1.qid }
    [Effect.markSeen demoUser demoQ1.qid,
     Effect.send demoUser (question_message demoQ1)]
    (by decide) (by decide) rfl rfl rfl

/-- Repeated serve-next-question requests for one user and one exam, one
request per oracle entry.  An exception (`Except.error`) leaves the state
unchanged and produces no effects for that request — each request is an
independent HTTP call, so later requests still run. -/
def run_serves (s : BotState) (uid : Json) (exam : String) :
    List Nat → List (List Effect) × BotState
  | [] => ([], s)
  | c :: cs =>
      match handle_new_question_request s c uid exam with
      | .ok (s', effs) =>
          let rest := run_serves s' uid exam cs
          (effs :: rest.1, rest.2)
      | .error _ =>
          let rest := run_serves s uid exam cs
          ([] :: rest.1, rest.2)

/-- The question id served by one request, if any (the id written to the
user's seen list, which is also the id in the four button payloads). -/
def servedQid (effs : List Effect) : Option String :=
  effs.findSome? (fun e => match e with
    | .markSeen _ qid => some qid
    | _ => none)

/-- All question ids served along a trace. -/
def servedIds (trace : List (List Effect)) : List String :=
  trace.filterMap servedQid

/-- Did this request reply with the exam-exhaustion (completion) message? -/
def isCompletionReply (uid : Json) (exam : String) (effs : List Effect) : Bool :=
  decide (Effect.send uid (completion_message exam) ∈ effs)

/-- A healthy world for a user: both collaborators reachable and every
stored id a well-formed `ObjectId` (Mongo's own guarantees). -/
def GoodState (s : BotState) (uid : Json) : Prop :=
  s.storeUp = true ∧ s.netUp = true ∧
  (∀ q ∈ s.questions, objectIdCanonical q.qid = true) ∧
  (∀ id ∈ seenOf s uid, objectIdCanonical id = true)

theorem isCompletionReply_serve (uid : Json) (exam : String) (s2 : BotState)
    (q : Question) :
    isCompletionReply uid exam
      (Effect.markSeen uid q.qid :: send_message s2 uid (question_message q))
      = false := by
  cases hn : s2.netUp <;>
    simp [isCompletionReply, send_message, hn, question_message, completion_message]

theorem run_serves_exhausted (uid : Json) (exam : String) (cs : List Nat) :
    ∀ s : BotState, GoodState s uid → qualifyingOf s uid exam = [] →
      run_serves s uid exam cs
        = (cs.map (fun _ => send_message s uid (completion_message exam)), s) := by
  induction cs with
  | nil => intro s _ _; rfl
  | cons c cs ih =>
      intro s hg hq
      obtain ⟨hsU, hnU, hqv, hsv⟩ := hg
      have hall : (seenOf s uid).all objectIdValid = true :=
        List.all_eq_true.mpr (fun id h => objectIdCanonical_valid id (hsv id h))
      have hf : fetch_unseen_question s c uid exam = .ok none := by
        rw [fetch_eq_qualifying s c uid exam hsU hall, hq]
        rfl
      have hstep := handle_new_question_request_none s c uid exam hf
      simp [run_serves, hstep, ih s ⟨hsU, hnU, hqv, hsv⟩ hq]

theorem run_serves_master (uid : Json) (exam : String) (cs : List Nat) :
    ∀ s : BotState, GoodState s uid →
      GoodState (run_serves s uid exam cs).2 uid ∧
      (run_serves s uid exam cs).2.questions = s.questions ∧
      (∀ id, id ∈ seenOf s uid → id ∈ seenOf (run_serves s uid exam cs).2 uid) ∧
      (∀ qid, qid ∈ servedIds (run_serves s uid exam cs).1 →
        qid ∉ seenOf s uid ∧ qid ∈ seenOf (run_serves s uid exam cs).2 uid) ∧
      (servedIds (run_serves s uid exam cs).1).Nodup ∧
      (∀ i j ti tj, i ≤ j →
        (run_serves s uid exam cs).1.get? i = some ti →
        (run_serves s uid exam cs).1.get? j = some tj →
        isCompletionReply uid exam ti = true →
        isCompletionReply uid exam tj = true) := by
  induction cs with
  | nil =>
      intro s hg
      refine ⟨hg, rfl, fun id h => h, ?_, ?_, ?_⟩
      · intro qid h
        simp [run_serves, servedIds] at h
      · simp [run_serves, servedIds]
      · intro i j ti tj _ hti _ _
        simp [run_serves] at hti
  | cons c cs ih =>
      intro s hg
      obtain ⟨hsU, hnU, hqv, hsv⟩ := hg
      have hall : (seenOf s uid).all objectIdValid = true :=
        List.all_eq_true.mpr (fun id h => objectIdCanonical_valid id (hsv id h))
      have hfetch := fetch_eq_qualifying s c uid exam hsU hall
      by_cases hq : qualifyingOf s uid exam = []
      · rw [run_serves_exhausted uid exam (c :: cs) s ⟨hsU, hnU, hqv, hsv⟩ hq]
        have hserved : servedIds ((c :: cs).map
            (fun _ => send_message s uid (completion_message exam))) = [] := by
          rw [servedIds, List.filterMap_eq_nil_iff]
          intro t ht
          obtain ⟨x, -, rfl⟩ := List.mem_map.mp ht
          simp [servedQid, send_message, hnU]
        refine ⟨⟨hsU, hnU, hqv, hsv⟩, rfl, fun id h => h, ?_, ?_, ?_⟩
        · intro qid h
          rw [hserved] at h
          cases h
        · rw [hserved]
          exact List.nodup_nil
        · intro i j ti tj _ _ htj _
          have htjm := List.get?_mem htj
          obtain ⟨x, -, rfl⟩ := List.mem_map.mp htjm
          simp [isCompletionReply, send_message, hnU]
      · have hlen : 0 < (qualifyingOf s uid exam).length :=
          List.length_pos.mpr hq
        have hmod : c % (qualifyingOf s uid exam).length
            < (qualifyingOf s uid exam).length := Nat.mod_lt _ hlen
        obtain ⟨q, hgetq⟩ : ∃ q, (qualifyingOf s uid exam).get?
            (c % (qualifyingOf s uid exam).length) = some q :=
          ⟨_, List.get?_eq_get hmod⟩
        have hf : fetch_unseen_question s c uid exam = .ok (some q) := by
          rw [hfetch, hgetq]
        have hqmem : q ∈ qualifyingOf s uid exam := List.get?_mem hgetq
        have hqfacts : q ∈ s.questions ∧ q.exam_name = exam ∧ q.qid ∉ seenOf s uid := by
          simpa [qualifyingOf] using hqmem
        have hqs : q ∈ s.questions := hqfacts.1
        have hqnotseen : q.qid ∉ seenOf s uid := hqfacts.2.2
        have hrw : run_serves s uid exam (c :: cs) =
            ((Effect.markSeen uid q.qid ::
                send_message { s with users := pushSeen s.users uid q.qid } uid
                  (question_message q)) ::
              (run_serves { s with users := pushSeen s.users uid q.qid }
                uid exam cs).1,
             (run_serves { s with users := pushSeen s.users uid q.qid }
                uid exam cs).2) := by
          simp only [run_serves, handle_new_question_request_some s c uid exam q hf]
        have hseen2 : seenOf { s with users := pushSeen s.users uid q.qid } uid
            = seenOf s uid ++ [q.qid] := seenOf_pushSeen s uid q.qid
        have hGood2 : GoodState { s with users := pushSeen s.users uid q.qid } uid := by
          refine ⟨hsU, hnU, hqv, ?_⟩
          rw [hseen2]
          intro id hid
          rcases List.mem_append.mp hid with hold | hnew
          · exact hsv id hold
          · rw [List.mem_singleton.mp hnew]
            exact hqv q hqs
        obtain ⟨ihGood, ihQ, ihMono, ihServed, ihNodup, ihAbsorb⟩ :=
          ih { s with users := pushSeen s.users uid q.qid } hGood2
        have hqid_seen2 : q.qid ∈ seenOf { s with users := pushSeen s.users uid q.qid } uid := by
          rw [hseen2]
          exact List.mem_append_right _ (List.mem_singleton.mpr rfl)
        have hservedIds : servedIds ((run_serves s uid exam (c :: cs)).1)
            = q.qid :: servedIds ((run_serves { s with users := pushSeen s.users uid q.qid }
                uid exam cs).1) := by
          rw [hrw]
          rfl
        rw [hrw]
        refine ⟨ihGood, ihQ, ?_, ?_, ?_, ?_⟩
        · intro id hid
          exact ihMono id (by rw [hseen2]; exact List.mem_append_left _ hid)
        · intro qid hqid
          rw [hrw] at hservedIds
          rw [hservedIds] at hqid
          rcases List.mem_cons.mp hqid with heq | htail
          · subst heq
            exact ⟨hqnotseen, ihMono _ hqid_seen2⟩
          · obtain ⟨hnot2, hin2⟩ := ihServed qid htail
            refine ⟨?_, hin2⟩
            intro hin
            exact hnot2 (by rw [hseen2]; exact List.mem_append_left _ hin)
        · rw [hrw] at hservedIds
          rw [hservedIds]
          refine List.nodup_cons.mpr ⟨?_, ihNodup⟩
          intro hin
          exact (ihServed q.qid hin).1 hqid_seen2
        · intro i j ti tj hij hti htj hcompl
          cases i with
          | zero =>
              have hti0 : Effect.markSeen uid q.qid ::
                  send_message { s with users := pushSeen s.users uid q.qid } uid
                    (question_message q) = ti := by
                simpa using hti
              rw [← hti0, isCompletionReply_serve] at hcompl
              cases hcompl
          | succ i' =>
              cases j with
              | zero => omega
              | succ j' =>
                  exact ihAbsorb i' j' ti tj (by omega)
                    (by simpa using hti) (by simpa using htj) hcompl

/-- C1: for any user, exam and random choices, under reachable
collaborators and well-formed stored ids, repeated serve-next-question
requests never serve the same question id twice (the served ids are
pairwise distinct); every served id ends up recorded in the user's seen
list; when no qualifying question remains every request yields the
completion message; and once a completion reply occurs, every later
reply is again the completion reply. -/
theorem C1_no_repeat_until_exhaustion (s : BotState) (uid : Json) (exam : String)
    (cs : List Nat)
    (hstore : s.storeUp = true) (hnet : s.netUp = true)
    (hqv : ∀ q ∈ s.questions, objectIdCanonical q.qid = true)
    (hsv : ∀ id ∈ seenOf s uid, objectIdCanonical id = true) :
    (servedIds (run_serves s uid exam cs).1).Nodup ∧
    (∀ qid ∈ servedIds (run_serves s uid exam cs).1,
        qid ∈ seenOf (run_serves s uid exam cs).2 uid) ∧
    (qualifyingOf s uid exam = [] →
      ∀ t ∈ (run_serves s uid exam cs).1, isCompletionReply uid exam t = true) ∧
    (∀ i j ti tj, i ≤ j →
        (run_serves s uid exam cs).1.get? i = some ti →
        (run_serves s uid exam cs).1.get? j = some tj →
        isCompletionReply uid exam ti = true →
        isCompletionReply uid exam tj = true) := by
  obtain ⟨hGood, hQ, hMono, hServed, hNodup, hAbsorb⟩ :=
    run_serves_master uid exam cs s ⟨hstore, hnet, hqv, hsv⟩
  refine ⟨hNodup, fun qid h => (hServed qid h).2, ?_, hAbsorb⟩
  intro hq t ht
  rw [run_serves_exhausted uid exam cs s ⟨hstore, hnet, hqv, hsv⟩ hq] at ht
  obtain ⟨x, -, rfl⟩ := List.mem_map.mp ht
  simp [isCompletionReply, send_message, hnet]

/-- Witness for C1: four consecutive NEET requests against the two-question
demo bank serve two distinct questions and then repeat the completion
message. -/
theorem C1_no_repeat_until_exhaustion_witness :
    (servedIds (run_serves demoState demoUser "NEET" [0, 0, 0, 0]).1).Nodup ∧
    (∀ qid ∈ servedIds (run_serves demoState demoUser "NEET" [0, 0, 0, 0]).1,
        qid ∈ seenOf (run_serves demoState demoUser "NEET" [0, 0, 0, 0]).2 demoUser) ∧
    (qualifyingOf demoState demoUser "NEET" = [] →
      ∀ t ∈ (run_serves demoState demoUser "NEET" [0, 0, 0, 0]).1,
        isCompletionReply demoUser "NEET" t = true) ∧
    (∀ i j ti tj, i ≤ j →
        (run_serves demoState demoUser "NEET" [0, 0, 0, 0]).1.get? i = some ti →
        (run_serves demoState demoUser "NEET" [0, 0, 0, 0]).1.get? j = some tj →
        isCompletionReply demoUser "NEET" ti = true →
        isCompletionReply demoUser "NEET" tj = true) :=
  C1_no_repeat_until_exhaustion demoState demoUser "NEET" [0, 0, 0, 0]
    rfl rfl (by decide) (by decide)

/-- The lookup is case-insensitive, as bson is: the uppercase alias of a
stored id resolves to the stored document. -/
theorem get_question_by_id_uppercase_alias :
    get_question_by_id demoState "AAAAAAAAAAAAAAAAAAAAAAAA" = .ok (some demoQ1) := rfl

/-- Hence an `ANSWER` postback carrying the uppercase alias of a stored
id is graded and answered — its id IS present in the store (up to
`ObjectId` normalization), so it is outside C5's silent-drop hypothesis. -/
theorem handle_postback_uppercase_alias_sends :
    effectsOf (handle_postback demoState 0 demoUser
        "ANSWER_AAAAAAAAAAAAAAAAAAAAAAAA_b")
      = [Effect.send demoUser (answer_reply demoQ1 "b")] := rfl
